import Mathlib

/-!
Shallow embedding of the filter-and-aggregate pipeline of `src/app.py`
(the AGROANCO sales/inventory dashboard), together with proofs about the
specification's testable properties.

A `Record` is one row of the dashboard's DataFrame: a calendar date
(encoded as a natural number such as 20230101, so that calendar order is
numeric order), a category string (the `Repuesto` column), a quantity
sold and an inventory level.  A `FilterSpec` is the sidebar filter state.
Aggregates follow the pandas semantics of the corresponding lines of
`src/app.py`:
  - `df.groupby(k)[v].sum()` sorts the group keys ascending (pandas
    default `sort=True`) and pairs each key with the sum of `v` over the
    rows carrying that key;
  - `Series.idxmax()` returns the index of the first occurrence of the
    maximum, and raises `ValueError` on an empty series (modelled as
    `Except.error`);
  - `Series.mean()` of an empty column is `NaN` (modelled as `none`);
  - `Series.nlargest(5)` keeps the five largest values in descending
    order; its default `keep="first"` retains, among tied values, the
    earlier entries of the (key-ascending) grouped series.
-/

namespace Agroanco

/-- One row of the dashboard's DataFrame `df` (src/app.py lines 12-19). -/
structure Record where
  fecha : Nat
  repuesto : String
  cantidad_vendida : Nat
  inventario : Nat
  deriving DecidableEq, Repr

/-- The sidebar filter state (src/app.py lines 34-57): a date range, the
selected categories (possibly holding the sentinel "Todos"), an inclusive
quantity-sold range and an inclusive inventory range. -/
structure FilterSpec where
  start_date : Nat
  end_date : Nat
  categoria_seleccionada : List String
  rango_ventas : Nat × Nat
  rango_inventario : Nat × Nat
  deriving DecidableEq, Repr

/-- pandas `Series.between(lo, hi)` is inclusive on both ends. -/
def between (x lo hi : Nat) : Bool := decide (lo ≤ x) && decide (x ≤ hi)

/-- The date, quantity-sold and inventory conjuncts of the boolean row
mask (src/app.py lines 60-65). -/
def mask_base (s : FilterSpec) (r : Record) : Bool :=
  (decide (s.start_date ≤ r.fecha) && decide (r.fecha ≤ s.end_date))
    && between r.cantidad_vendida s.rango_ventas.1 s.rango_ventas.2
    && between r.inventario s.rango_inventario.1 s.rango_inventario.2

/-- The full row mask: the category conjunct `df['Repuesto'].isin(...)` is
added only when the sentinel "Todos" is not among the selected categories
(src/app.py lines 60-68). -/
def mask (s : FilterSpec) (r : Record) : Bool :=
  if "Todos" ∈ s.categoria_seleccionada then mask_base s r
  else mask_base s r && decide (r.repuesto ∈ s.categoria_seleccionada)

/-- Row selection `df_filtered = df[mask]` (src/app.py line 70): keeps the
rows whose mask entry is true, in their original order. -/
def df_filtered (s : FilterSpec) (df : List Record) : List Record :=
  df.filter (mask s)

/-- True exactly when the app shows the date-range `st.error` message
(src/app.py lines 40-41); execution continues past it either way. -/
def error_fecha (s : FilterSpec) : Bool := decide (s.end_date < s.start_date)

/-- The category selection actually used after the empty-selection check
(src/app.py lines 47-49): an empty selection is replaced by `['Todos']`. -/
def categoria_seleccionada_final (sel : List String) : List String :=
  if sel = [] then ["Todos"] else sel

/-- True exactly when the app shows the empty-selection `st.warning`
advisory (src/app.py line 48). -/
def warning_categoria (sel : List String) : Bool := decide (sel = [])

/-- KPI "Ventas Totales" (src/app.py line 83): sum of the quantity-sold
column; pandas `sum()` of an empty column is 0. -/
def ventas_totales (l : List Record) : Nat := (l.map (·.cantidad_vendida)).sum

/-- KPI "Inventario Total" (src/app.py line 85). -/
def inventario_total (l : List Record) : Nat := (l.map (·.inventario)).sum

/-- KPI "Promedio de Inventario" (src/app.py line 86): pandas `mean()` of
an empty column is `NaN`, modelled as `none`. -/
def promedio_inventario (l : List Record) : Option ℚ :=
  if l = [] then none
  else some (((l.map (·.inventario)).sum : ℚ) / (l.length : ℚ))

/-- Python's string order, as pandas sorts category labels: lexicographic
by code point, i.e. the order of the underlying character lists. -/
def strLe (a b : String) : Bool := decide (a.data ≤ b.data)

/-- Numeric order on encoded dates. -/
def natLe (m n : Nat) : Bool := decide (m ≤ n)

/-- Insert `a` into `l` in front of the first element `b` with `le a b`. -/
def ordInsert {α : Type} (le : α → α → Bool) (a : α) : List α → List α
  | [] => [a]
  | b :: l => if le a b then a :: b :: l else b :: ordInsert le a l

/-- Stable insertion sort by the comparison `le`: an element moves in
front of another only when the comparison strictly requires it, so equal
elements keep their input order. -/
def insSort {α : Type} (le : α → α → Bool) : List α → List α
  | [] => []
  | b :: l => ordInsert le b (insSort le l)

/-- Sum of `val` over the rows whose `key` equals `k`: the value that
`df.groupby(key)[val].sum()` associates with the group key `k`. -/
def suma_por_clave {α : Type} [DecidableEq α] (key : Record → α)
    (val : Record → Nat) (l : List Record) (k : α) : Nat :=
  ((l.filter (fun r => key r = k)).map val).sum

/-- pandas `df.groupby(key)[val].sum()` (default `sort=True`): the distinct
keys sorted ascending by `le`, each paired with the sum of `val` over its
rows. -/
def groupby_sum {α : Type} [DecidableEq α] (le : α → α → Bool) (key : Record → α)
    (val : Record → Nat) (l : List Record) : List (α × Nat) :=
  (insSort le ((l.map key).dedup)).map (fun k => (k, suma_por_clave key val l k))

/-- Running scan behind `idxmax`: keeps the current best pair and replaces
it only on a strictly larger value, so the first occurrence of the maximum
wins. -/
def idxmaxGo {α : Type} (best : α × Nat) : List (α × Nat) → α × Nat
  | [] => best
  | q :: rest => if best.2 < q.2 then idxmaxGo q rest else idxmaxGo best rest

/-- pandas `Series.idxmax()`: the index (key) of the first occurrence of
the maximum value; on an empty series it raises
`ValueError: attempt to get argmax of an empty sequence`. -/
def idxmax {α : Type} : List (α × Nat) → Except String α
  | [] => Except.error "attempt to get argmax of an empty sequence"
  | p :: rest => Except.ok (idxmaxGo p rest).1

/-- The grouped series `df_filtered.groupby('Repuesto')['Cantidad_Vendida'].sum()`. -/
def groupby_repuesto_cantidad (l : List Record) : List (String × Nat) :=
  groupby_sum strLe (·.repuesto) (·.cantidad_vendida) l

/-- KPI "Categoría Más Vendida" (src/app.py line 84). -/
def categoria_mas_vendida (l : List Record) : Except String String :=
  idxmax (groupby_repuesto_cantidad l)

/-- The descending-by-value comparison used by `sort_values(ascending=False)`
and by `nlargest`. -/
def valDesc {α : Type} (p q : α × Nat) : Bool := decide (q.2 ≤ p.2)

/-- Bar-chart data (src/app.py line 171): per-category quantity totals,
sorted descending by total. -/
def ventas_por_categoria (l : List Record) : List (String × Nat) :=
  insSort valDesc (groupby_repuesto_cantidad l)

/-- The grouped series `df_filtered.groupby('Fecha')['Cantidad_Vendida'].sum()`,
keys (dates) ascending. -/
def groupby_fecha_cantidad (l : List Record) : List (Nat × Nat) :=
  groupby_sum natLe (·.fecha) (·.cantidad_vendida) l

/-- Top-5 chart data (src/app.py line 199): `nlargest(5)` of the per-day
sums.  `keep="first"` makes the selection stable: among equal values the
earlier (smaller-date) entries of the date-ascending grouped series come
first, which the stable insertion sort by descending value reproduces. -/
def top_5_dias (l : List Record) : List (Nat × Nat) :=
  (insSort valDesc (groupby_fecha_cantidad l)).take 5

/-- Pie-chart data (src/app.py line 192): per-category inventory totals. -/
def inventario_por_categoria (l : List Record) : List (String × Nat) :=
  groupby_sum strLe (·.repuesto) (·.inventario) l

/-- Line-chart data (src/app.py lines 179-180): monthly quantity sums; the
calendar month of an encoded `yyyymmdd` date is its `yyyymm` part. -/
def ventas_mensuales (l : List Record) : List (Nat × Nat) :=
  groupby_sum natLe (fun r => r.fecha / 100) (·.cantidad_vendida) l

/-- Distinct elements in order of first appearance, accumulator style. -/
def firstOccurrencesAux (seen : List String) : List String → List String
  | [] => []
  | c :: rest =>
    if c ∈ seen then firstOccurrencesAux seen rest
    else c :: firstOccurrencesAux (c :: seen) rest

/-- Modelled from the spec (§4.1, `top_category` tie-break): the category
achieving the maximal summed quantity, ties resolved in favour of the
first such category in dataset iteration order.  Used to compare the
specification's stated tie-break with the code's. -/
def spec_top_category (l : List Record) : Except String String :=
  idxmax ((firstOccurrencesAux [] (l.map (·.repuesto))).map
    (fun c => (c, suma_por_clave (·.repuesto) (·.cantidad_vendida) l c)))

/-- Descending-by-value order with ties broken by ascending key: the shape
the top-5 listing is claimed to have. -/
def lexDesc (p q : Nat × Nat) : Prop := q.2 < p.2 ∨ (q.2 = p.2 ∧ p.1 < q.1)

/-- The two-row dataset of the specification's concrete scenarios (§8). -/
def df_ejemplo : List Record :=
  [⟨20230101, "Filtro", 5, 50⟩, ⟨20230102, "Aceite", 10, 30⟩]

/-- Full date range, all categories, wide ranges: the all-pass spec of §8. -/
def spec_todo : FilterSpec :=
  { start_date := 20230101, end_date := 20231231,
    categoria_seleccionada := ["Todos"],
    rango_ventas := (0, 20), rango_inventario := (0, 100) }

/-- The §8 scenario whose quantity range [11,20] excludes both rows. -/
def spec_vacio : FilterSpec :=
  { start_date := 20230101, end_date := 20231231,
    categoria_seleccionada := ["Todos"],
    rango_ventas := (11, 20), rango_inventario := (0, 100) }

/-- A spec whose initial date is later than its final date. -/
def spec_invertido : FilterSpec :=
  { start_date := 20230105, end_date := 20230101,
    categoria_seleccionada := ["Todos"],
    rango_ventas := (0, 20), rango_inventario := (0, 100) }

/-- A selection holding the sentinel together with a specific category. -/
def spec_mixto : FilterSpec :=
  { start_date := 20230101, end_date := 20231231,
    categoria_seleccionada := ["Todos", "Filtro"],
    rango_ventas := (0, 20), rango_inventario := (0, 100) }

/-- A record of a category outside spec_mixto's specific selection. -/
def rec_aceite : Record := ⟨20230102, "Aceite", 10, 30⟩

/-- Two records of distinct categories with equal quantity sold: a tie for
the best-selling category. -/
def df_empate : List Record :=
  [⟨20230101, "Correa", 5, 10⟩, ⟨20230102, "Aceite", 5, 10⟩]

/-- C1: for every dataset and every valid FilterSpec, a record is in
`df_filtered` iff it is in the dataset and satisfies the four predicates
conjunctively: date within [start_date, end_date], quantity sold within
`rango_ventas` (inclusive), inventory within `rango_inventario`
(inclusive), and its category selected or the "Todos" sentinel present. -/
theorem filter_exactness (s : FilterSpec) (df : List Record) (r : Record)
    (hdate : s.start_date ≤ s.end_date)
    (hq : s.rango_ventas.1 ≤ s.rango_ventas.2)
    (hi : s.rango_inventario.1 ≤ s.rango_inventario.2) :
    r ∈ df_filtered s df ↔
      r ∈ df
      ∧ (s.start_date ≤ r.fecha ∧ r.fecha ≤ s.end_date)
      ∧ (s.rango_ventas.1 ≤ r.cantidad_vendida ∧ r.cantidad_vendida ≤ s.rango_ventas.2)
      ∧ (s.rango_inventario.1 ≤ r.inventario ∧ r.inventario ≤ s.rango_inventario.2)
      ∧ (r.repuesto ∈ s.categoria_seleccionada ∨ "Todos" ∈ s.categoria_seleccionada) := by
  by_cases h : "Todos" ∈ s.categoria_seleccionada <;>
    simp [df_filtered, mask, mask_base, between, List.mem_filter, h, and_assoc]

/-- Witness for C1 at the §8 scenario: the "Filtro" record of the example
dataset passes the all-pass spec. -/
theorem filter_exactness_witness :
    (⟨20230101, "Filtro", 5, 50⟩ : Record) ∈ df_filtered spec_todo df_ejemplo ↔
      (⟨20230101, "Filtro", 5, 50⟩ : Record) ∈ df_ejemplo
      ∧ (spec_todo.start_date ≤ 20230101 ∧ 20230101 ≤ spec_todo.end_date)
      ∧ (spec_todo.rango_ventas.1 ≤ 5 ∧ 5 ≤ spec_todo.rango_ventas.2)
      ∧ (spec_todo.rango_inventario.1 ≤ 50 ∧ 50 ≤ spec_todo.rango_inventario.2)
      ∧ (("Filtro" : String) ∈ spec_todo.categoria_seleccionada
         ∨ ("Todos" : String) ∈ spec_todo.categoria_seleccionada) :=
  filter_exactness spec_todo df_ejemplo ⟨20230101, "Filtro", 5, 50⟩
    (by decide) (by decide) (by decide)

/-- C10: `df_filtered` is an order-preserving subsequence of the input:
every record it holds is a record of the input, unmodified, occurring at
most as often as there, in the same relative order. -/
theorem df_filtered_sublist (s : FilterSpec) (df : List Record) :
    (df_filtered s df).Sublist df
    ∧ ∀ r : Record, (df_filtered s df).count r ≤ df.count r :=
  ⟨List.filter_sublist df, fun r => (List.filter_sublist df).count_le r⟩

/-- C8: the pipeline is a pure function of dataset and spec; filtering is
idempotent and re-running the pipeline on its own output with the same spec
changes neither the filtered rows nor any aggregate. -/
theorem pipeline_pure_idempotent (s : FilterSpec) (df : List Record) :
    df_filtered s (df_filtered s df) = df_filtered s df
    ∧ ventas_totales (df_filtered s (df_filtered s df))
        = ventas_totales (df_filtered s df)
    ∧ inventario_total (df_filtered s (df_filtered s df))
        = inventario_total (df_filtered s df)
    ∧ promedio_inventario (df_filtered s (df_filtered s df))
        = promedio_inventario (df_filtered s df)
    ∧ categoria_mas_vendida (df_filtered s (df_filtered s df))
        = categoria_mas_vendida (df_filtered s df)
    ∧ ventas_por_categoria (df_filtered s (df_filtered s df))
        = ventas_por_categoria (df_filtered s df)
    ∧ ventas_mensuales (df_filtered s (df_filtered s df))
        = ventas_mensuales (df_filtered s df)
    ∧ inventario_por_categoria (df_filtered s (df_filtered s df))
        = inventario_por_categoria (df_filtered s df)
    ∧ top_5_dias (df_filtered s (df_filtered s df))
        = top_5_dias (df_filtered s df) := by
  have h : df_filtered s (df_filtered s df) = df_filtered s df :=
    List.filter_eq_self.mpr (fun a ha => (List.mem_filter.mp ha).2)
  exact ⟨h, by rw [h], by rw [h], by rw [h], by rw [h], by rw [h], by rw [h],
    by rw [h], by rw [h]⟩

/-- C9: whenever the sentinel "Todos" occurs anywhere in the selection,
even next to specific categories, the category conjunct is skipped: the
mask degenerates to the date/quantity/inventory conjuncts alone, so records
of every category may pass. -/
theorem todos_sentinel_skips_categoria (s : FilterSpec)
    (h : "Todos" ∈ s.categoria_seleccionada) (df : List Record) (r : Record) :
    mask s r = mask_base s r
    ∧ (r ∈ df_filtered s df ↔ r ∈ df ∧ mask_base s r = true) := by
  refine ⟨by simp [mask, h], ?_⟩
  simp [df_filtered, List.mem_filter, mask, h]

/-- Witness for C9: with selection ["Todos", "Filtro"], the record of
category "Aceite" passes the filter although "Aceite" is not selected. -/
theorem todos_sentinel_witness :
    (mask spec_mixto rec_aceite = mask_base spec_mixto rec_aceite
      ∧ (rec_aceite ∈ df_filtered spec_mixto [rec_aceite] ↔
          rec_aceite ∈ [rec_aceite] ∧ mask_base spec_mixto rec_aceite = true))
    ∧ rec_aceite ∈ df_filtered spec_mixto [rec_aceite] :=
  ⟨todos_sentinel_skips_categoria spec_mixto (by decide) [rec_aceite] rec_aceite,
    by decide⟩

/-- C5: an empty category selection is replaced by the sentinel selection
`['Todos']` (so no category restriction is applied), the advisory warning
is shown, and no failure occurs: with the normalised selection the filter
is exactly the category-free base mask. -/
theorem empty_categorias_advisory (sel : List String) (h : sel = []) :
    categoria_seleccionada_final sel = ["Todos"]
    ∧ warning_categoria sel = true
    ∧ ∀ (s : FilterSpec) (df : List Record),
        s.categoria_seleccionada = categoria_seleccionada_final sel →
        df_filtered s df = df.filter (mask_base s) := by
  subst h
  refine ⟨rfl, rfl, fun s df hs => ?_⟩
  have hT : "Todos" ∈ s.categoria_seleccionada := by
    rw [hs]; exact List.mem_singleton.mpr rfl
  exact List.filter_congr (fun r _ => by simp [mask, hT])

/-- Witness for C5 at the empty selection. -/
theorem empty_categorias_advisory_witness :
    categoria_seleccionada_final [] = ["Todos"]
    ∧ warning_categoria [] = true
    ∧ ∀ (s : FilterSpec) (df : List Record),
        s.categoria_seleccionada = categoria_seleccionada_final [] →
        df_filtered s df = df.filter (mask_base s) :=
  empty_categorias_advisory [] rfl

/-- C2 (code evaluated at the failing input): with the §8 scenario whose
quantity range [11,20] empties the filtered subset, both sums are 0 and the
mean is the NaN sentinel, but `categoria_mas_vendida` is `idxmax` of an
empty grouped series, which raises ValueError instead of returning the
"no data" sentinel the claim requires. -/
theorem empty_subset_aggregates :
    df_filtered spec_vacio df_ejemplo = []
    ∧ ventas_totales (df_filtered spec_vacio df_ejemplo) = 0
    ∧ inventario_total (df_filtered spec_vacio df_ejemplo) = 0
    ∧ promedio_inventario (df_filtered spec_vacio df_ejemplo) = none
    ∧ categoria_mas_vendida (df_filtered spec_vacio df_ejemplo)
        = Except.error "attempt to get argmax of an empty sequence" :=
  ⟨rfl, rfl, rfl, rfl, rfl⟩

/-- C3 (code evaluated at the failing input): with start_date > end_date
the `st.error` message is shown, but filtering proceeds with the inverted
range (no fallback), the filtered subset is empty, and the subsequent
`idxmax` on line 84 raises ValueError: the pipeline does crash. -/
theorem inverted_range_behaviour :
    error_fecha spec_invertido = true
    ∧ df_filtered spec_invertido df_ejemplo = []
    ∧ categoria_mas_vendida (df_filtered spec_invertido df_ejemplo)
        = Except.error "attempt to get argmax of an empty sequence" :=
  ⟨rfl, rfl, rfl⟩

theorem ordInsert_perm {α : Type} (le : α → α → Bool) (a : α) (l : List α) :
    (ordInsert le a l).Perm (a :: l) := by
  induction l with
  | nil => exact List.Perm.refl _
  | cons b l ih =>
    by_cases h : le a b
    · rw [ordInsert, if_pos h]
    · rw [ordInsert, if_neg h]
      exact (ih.cons b).trans (List.Perm.swap a b l)

theorem insSort_perm {α : Type} (le : α → α → Bool) (l : List α) :
    (insSort le l).Perm l := by
  induction l with
  | nil => exact List.Perm.refl _
  | cons b l ih =>
    exact (ordInsert_perm le b (insSort le l)).trans (ih.cons b)

theorem sum_map_add_nat {α : Type} (f g : α → Nat) (cs : List α) :
    (cs.map (fun c => f c + g c)).sum = (cs.map f).sum + (cs.map g).sum := by
  induction cs with
  | nil => rfl
  | cons c cs ih => simp [ih]; omega

theorem sum_indicator_not_mem {α : Type} [DecidableEq α] (v : Nat) (x : α)
    (cs : List α) (hx : x ∉ cs) :
    (cs.map (fun c => if x = c then v else 0)).sum = 0 := by
  induction cs with
  | nil => rfl
  | cons c cs ih =>
    simp only [List.mem_cons, not_or] at hx
    simp [if_neg hx.1, ih hx.2]

theorem sum_indicator_nodup {α : Type} [DecidableEq α] (v : Nat) (x : α)
    (cs : List α) (hn : cs.Nodup) (hx : x ∈ cs) :
    (cs.map (fun c => if x = c then v else 0)).sum = v := by
  induction cs with
  | nil => exact absurd hx (List.not_mem_nil x)
  | cons c cs ih =>
    rcases List.mem_cons.mp hx with h | h
    · subst h
      have hnot : x ∉ cs := (List.nodup_cons.mp hn).1
      simp [sum_indicator_not_mem v x cs hnot]
    · have hxc : x ≠ c := fun he => (List.nodup_cons.mp hn).1 (he ▸ h)
      simp [if_neg hxc, ih (List.nodup_cons.mp hn).2 h]

theorem suma_por_clave_cons {α : Type} [DecidableEq α] (key : Record → α)
    (val : Record → Nat) (r : Record) (t : List Record) (k : α) :
    suma_por_clave key val (r :: t) k
      = (if key r = k then val r else 0) + suma_por_clave key val t k := by
  by_cases h : key r = k <;> simp [suma_por_clave, List.filter_cons, h]

theorem sum_suma_por_clave {α : Type} [DecidableEq α] (key : Record → α)
    (val : Record → Nat) (cs : List α) (hn : cs.Nodup) :
    ∀ l : List Record, (∀ r ∈ l, key r ∈ cs) →
      (cs.map (fun c => suma_por_clave key val l c)).sum = (l.map val).sum := by
  intro l
  induction l with
  | nil => intro _; simp [suma_por_clave]
  | cons r t ih =>
    intro hall
    simp only [suma_por_clave_cons]
    rw [sum_map_add_nat, sum_indicator_nodup (val r) (key r) cs hn
      (hall r (List.mem_cons_self r t)),
      ih (fun x hx => hall x (List.mem_cons_of_mem r hx))]
    simp

theorem groupby_sum_values_sum {α : Type} [DecidableEq α] (le : α → α → Bool)
    (key : Record → α) (val : Record → Nat) (l : List Record) :
    ((groupby_sum le key val l).map (fun p => p.2)).sum = (l.map val).sum := by
  unfold groupby_sum
  rw [List.map_map]
  have h1 : ((insSort le ((l.map key).dedup)).map
      ((fun p : α × Nat => p.2) ∘ (fun k => (k, suma_por_clave key val l k)))).sum
      = (((l.map key).dedup).map (fun c => suma_por_clave key val l c)).sum :=
    ((insSort_perm le ((l.map key).dedup)).map _).sum_eq
  rw [h1]
  exact sum_suma_por_clave key val ((l.map key).dedup) (List.nodup_dedup _) l
    (fun r hr => List.mem_dedup.mpr (List.mem_map.mpr ⟨r, hr, rfl⟩))

/-- C4: the per-category quantity totals of the bar chart sum to the
"Ventas Totales" KPI, for any filtered subset. -/
theorem sum_ventas_por_categoria_eq (s : FilterSpec) (df : List Record) :
    ((ventas_por_categoria (df_filtered s df)).map (fun p => p.2)).sum
      = ventas_totales (df_filtered s df) := by
  unfold ventas_por_categoria ventas_totales
  have h1 : ((insSort valDesc (groupby_repuesto_cantidad (df_filtered s df))).map
      (fun p : String × Nat => p.2)).sum
      = ((groupby_repuesto_cantidad (df_filtered s df)).map (fun p : String × Nat => p.2)).sum :=
    ((insSort_perm valDesc _).map _).sum_eq
  rw [h1]
  exact groupby_sum_values_sum strLe (·.repuesto) (·.cantidad_vendida) (df_filtered s df)

theorem strLe_iff (a b : String) : strLe a b = true ↔ a ≤ b := by
  rw [strLe, decide_eq_true_eq]
  exact String.le_iff_toList_le.symm

theorem natLe_iff (m n : Nat) : natLe m n = true ↔ m ≤ n := by
  rw [natLe, decide_eq_true_eq]

theorem ordInsert_pairwise_le {α : Type} [LinearOrder α] (le : α → α → Bool)
    (hle : ∀ a b, le a b = true ↔ a ≤ b) (a : α) (l : List α)
    (hl : l.Pairwise (· ≤ ·)) : (ordInsert le a l).Pairwise (· ≤ ·) := by
  induction l with
  | nil => simp [ordInsert]
  | cons b l ih =>
    by_cases h : le a b
    · rw [ordInsert, if_pos h]
      have hab : a ≤ b := (hle a b).mp h
      refine List.pairwise_cons.mpr ⟨?_, hl⟩
      intro c hc
      rcases List.mem_cons.mp hc with rfl | hc'
      · exact hab
      · exact le_trans hab ((List.pairwise_cons.mp hl).1 c hc')
    · rw [ordInsert, if_neg h]
      have hba : b ≤ a := le_of_not_le (fun hab => h ((hle a b).mpr hab))
      obtain ⟨hb, hl'⟩ := List.pairwise_cons.mp hl
      refine List.pairwise_cons.mpr ⟨?_, ih hl'⟩
      intro c hc
      rcases List.mem_cons.mp ((ordInsert_perm le a l).mem_iff.mp hc) with rfl | hc'
      · exact hba
      · exact hb c hc'

theorem insSort_pairwise_le {α : Type} [LinearOrder α] (le : α → α → Bool)
    (hle : ∀ a b, le a b = true ↔ a ≤ b) (l : List α) :
    (insSort le l).Pairwise (· ≤ ·) := by
  induction l with
  | nil => simp [insSort]
  | cons b l ih => exact ordInsert_pairwise_le le hle b (insSort le l) ih

theorem insSort_pairwise_lt {α : Type} [LinearOrder α] (le : α → α → Bool)
    (hle : ∀ a b, le a b = true ↔ a ≤ b) (l : List α) (hn : l.Nodup) :
    (insSort le l).Pairwise (· < ·) := by
  have h1 := insSort_pairwise_le le hle l
  have h2 : (insSort le l).Nodup := ((insSort_perm le l).nodup_iff).mpr hn
  exact (h1.and h2).imp (fun h => lt_of_le_of_ne h.1 h.2)

theorem idxmaxGo_eq_or_mem {α : Type} (best : α × Nat) (l : List (α × Nat)) :
    idxmaxGo best l = best ∨ (idxmaxGo best l ∈ l ∧ best.2 < (idxmaxGo best l).2) := by
  induction l generalizing best with
  | nil => exact Or.inl rfl
  | cons q rest ih =>
    by_cases h : best.2 < q.2
    · simp only [idxmaxGo, if_pos h]
      rcases ih q with h1 | h2
      · exact Or.inr ⟨by rw [h1]; exact List.mem_cons_self q rest, by rw [h1]; exact h⟩
      · exact Or.inr ⟨List.mem_cons_of_mem q h2.1, lt_trans h h2.2⟩
    · simp only [idxmaxGo, if_neg h]
      rcases ih best with h1 | h2
      · exact Or.inl h1
      · exact Or.inr ⟨List.mem_cons_of_mem q h2.1, h2.2⟩

theorem idxmaxGo_le {α : Type} (best : α × Nat) (l : List (α × Nat)) :
    best.2 ≤ (idxmaxGo best l).2 ∧ ∀ q ∈ l, q.2 ≤ (idxmaxGo best l).2 := by
  induction l generalizing best with
  | nil => exact ⟨le_refl _, fun q hq => absurd hq (List.not_mem_nil q)⟩
  | cons q rest ih =>
    by_cases h : best.2 < q.2
    · simp only [idxmaxGo, if_pos h]
      obtain ⟨h1, h2⟩ := ih q
      refine ⟨le_trans (le_of_lt h) h1, fun p hp => ?_⟩
      rcases List.mem_cons.mp hp with rfl | hp'
      · exact h1
      · exact h2 p hp'
    · simp only [idxmaxGo, if_neg h]
      obtain ⟨h1, h2⟩ := ih best
      refine ⟨h1, fun p hp => ?_⟩
      rcases List.mem_cons.mp hp with rfl | hp'
      · exact le_trans (not_lt.mp h) h1
      · exact h2 p hp'

theorem idxmaxGo_tie_first {α : Type} [LinearOrder α] (best : α × Nat)
    (l : List (α × Nat)) (hs : (best :: l).Pairwise (fun p q => p.1 < q.1)) :
    ∀ q ∈ best :: l, q.2 = (idxmaxGo best l).2 → (idxmaxGo best l).1 ≤ q.1 := by
  induction l generalizing best with
  | nil =>
    intro q hq _
    rcases List.mem_cons.mp hq with rfl | h'
    · exact le_refl _
    · exact absurd h' (List.not_mem_nil q)
  | cons p rest ih =>
    obtain ⟨hhead, htail⟩ := List.pairwise_cons.mp hs
    by_cases h : best.2 < p.2
    · simp only [idxmaxGo, if_pos h]
      intro q hq hq2
      rcases List.mem_cons.mp hq with rfl | hq'
      · exfalso
        have h1 : p.2 ≤ (idxmaxGo p rest).2 := (idxmaxGo_le p rest).1
        omega
      · exact ih p htail q hq' hq2
    · simp only [idxmaxGo, if_neg h]
      have hs' : (best :: rest).Pairwise (fun p q => p.1 < q.1) :=
        hs.sublist ((List.sublist_cons_self p rest).cons₂ best)
      intro q hq hq2
      rcases List.mem_cons.mp hq with rfl | hq'
      · exact ih q hs' q (List.mem_cons_self q rest) hq2
      · rcases List.mem_cons.mp hq' with rfl | hq''
        · rcases idxmaxGo_eq_or_mem best rest with he | hm
          · rw [he]
            exact le_of_lt (hhead q (List.mem_cons_self q rest))
          · exfalso
            have h1 : ¬ best.2 < q.2 := h
            omega
        · exact ih best hs' q (List.mem_cons_of_mem best hq'') hq2

theorem groupby_sum_mem {α : Type} [DecidableEq α] {le : α → α → Bool}
    {key : Record → α} {val : Record → Nat} {l : List Record} {p : α × Nat}
    (hp : p ∈ groupby_sum le key val l) :
    p.1 ∈ l.map key ∧ p.2 = suma_por_clave key val l p.1 := by
  unfold groupby_sum at hp
  obtain ⟨k, hk, rfl⟩ := List.mem_map.mp hp
  exact ⟨List.mem_dedup.mp ((insSort_perm le _).mem_iff.mp hk), rfl⟩

theorem mem_groupby_sum {α : Type} [DecidableEq α] (le : α → α → Bool)
    (key : Record → α) (val : Record → Nat) {l : List Record} {k : α}
    (hk : k ∈ l.map key) :
    (k, suma_por_clave key val l k) ∈ groupby_sum le key val l := by
  unfold groupby_sum
  exact List.mem_map.mpr ⟨k, (insSort_perm le _).mem_iff.mpr (List.mem_dedup.mpr hk), rfl⟩

theorem groupby_sum_keys_pairwise {α : Type} [DecidableEq α] [LinearOrder α]
    (le : α → α → Bool) (hle : ∀ a b, le a b = true ↔ a ≤ b)
    (key : Record → α) (val : Record → Nat) (l : List Record) :
    (groupby_sum le key val l).Pairwise (fun p q => p.1 < q.1) := by
  unfold groupby_sum
  rw [List.pairwise_map]
  exact insSort_pairwise_lt le hle _ (List.nodup_dedup _)

theorem groupby_sum_ne_nil {α : Type} [DecidableEq α] (le : α → α → Bool)
    (key : Record → α) (val : Record → Nat) {l : List Record} (h : l ≠ []) :
    groupby_sum le key val l ≠ [] := by
  unfold groupby_sum
  intro hc
  have h1 : insSort le ((l.map key).dedup) = [] := List.map_eq_nil_iff.mp hc
  have h2 := (insSort_perm le ((l.map key).dedup)).length_eq
  rw [h1] at h2
  exact h (List.map_eq_nil_iff.mp
    ((List.dedup_eq_nil (l.map key)).mp (List.length_eq_zero.mp h2.symm)))

theorem categoria_mas_vendida_max_lex (l : List Record) (h : l ≠ []) :
    ∃ c : String, categoria_mas_vendida l = Except.ok c
      ∧ c ∈ l.map (·.repuesto)
      ∧ (∀ c' ∈ l.map (·.repuesto),
          suma_por_clave (·.repuesto) (·.cantidad_vendida) l c'
            ≤ suma_por_clave (·.repuesto) (·.cantidad_vendida) l c)
      ∧ (∀ c' ∈ l.map (·.repuesto),
          suma_por_clave (·.repuesto) (·.cantidad_vendida) l c'
            = suma_por_clave (·.repuesto) (·.cantidad_vendida) l c → c ≤ c') := by
  obtain ⟨p, rest, hgl⟩ := List.exists_cons_of_ne_nil (groupby_sum_ne_nil strLe
    (fun r => r.repuesto) (fun r => r.cantidad_vendida) h)
  have hres : idxmaxGo p rest ∈ groupby_repuesto_cantidad l := by
    rw [show groupby_repuesto_cantidad l = p :: rest from hgl]
    rcases idxmaxGo_eq_or_mem p rest with h1 | h2
    · rw [h1]; exact List.mem_cons_self p rest
    · exact List.mem_cons_of_mem p h2.1
  have hchar := groupby_sum_mem hres
  refine ⟨(idxmaxGo p rest).1, ?_, hchar.1, ?_, ?_⟩
  · unfold categoria_mas_vendida
    rw [show groupby_repuesto_cantidad l = p :: rest from hgl]
    rfl
  · intro c' hc'
    have hmem' : (c', suma_por_clave (·.repuesto) (·.cantidad_vendida) l c') ∈ p :: rest := by
      rw [← hgl]
      exact mem_groupby_sum strLe (fun r => r.repuesto) (fun r => r.cantidad_vendida) hc'
    rw [← hchar.2]
    rcases List.mem_cons.mp hmem' with he | hm
    · exact le_trans (le_of_eq (congrArg Prod.snd he)) (idxmaxGo_le p rest).1
    · exact (idxmaxGo_le p rest).2 _ hm
  · intro c' hc' heq
    have hpair : (groupby_repuesto_cantidad l).Pairwise (fun p q => p.1 < q.1) :=
      groupby_sum_keys_pairwise strLe strLe_iff (fun r => r.repuesto)
        (fun r => r.cantidad_vendida) l
    rw [show groupby_repuesto_cantidad l = p :: rest from hgl] at hpair
    have hmem' : (c', suma_por_clave (·.repuesto) (·.cantidad_vendida) l c') ∈ p :: rest := by
      rw [← hgl]
      exact mem_groupby_sum strLe (fun r => r.repuesto) (fun r => r.cantidad_vendida) hc'
    exact idxmaxGo_tie_first p rest hpair _ hmem' (heq.trans hchar.2.symm)

/-- C6 counterexample: over df_empate (categories tie at 5), the first
category in dataset iteration order achieving the maximum is "Correa", but
the code answers "Aceite": groupby sorted the keys, so idxmax resolves the
tie towards the lexicographically least category, not dataset order. -/
theorem categoria_mas_vendida_cex :
    df_filtered spec_todo df_empate = df_empate
    ∧ spec_top_category df_empate = Except.ok "Correa"
    ∧ categoria_mas_vendida df_empate = Except.ok "Aceite"
    ∧ categoria_mas_vendida df_empate ≠ spec_top_category df_empate := by
  refine ⟨rfl, rfl, rfl, ?_⟩
  intro hc
  have : ("Aceite" : String) = "Correa" := Except.ok.inj hc
  exact absurd this (by decide)

/-- C6 amended: for every non-empty filtered subset, `categoria_mas_vendida`
returns a category of maximal summed quantity sold; on ties it is the
lexicographically least such category (pandas groupby sorts the keys and
idxmax keeps the first maximal entry), not the first in dataset order. -/
theorem categoria_mas_vendida_amended (s : FilterSpec) (df : List Record)
    (h : df_filtered s df ≠ []) :
    ∃ c : String, categoria_mas_vendida (df_filtered s df) = Except.ok c
      ∧ c ∈ (df_filtered s df).map (·.repuesto)
      ∧ (∀ c' ∈ (df_filtered s df).map (·.repuesto),
          suma_por_clave (·.repuesto) (·.cantidad_vendida) (df_filtered s df) c'
            ≤ suma_por_clave (·.repuesto) (·.cantidad_vendida) (df_filtered s df) c)
      ∧ (∀ c' ∈ (df_filtered s df).map (·.repuesto),
          suma_por_clave (·.repuesto) (·.cantidad_vendida) (df_filtered s df) c'
            = suma_por_clave (·.repuesto) (·.cantidad_vendida) (df_filtered s df) c
          → c ≤ c') :=
  categoria_mas_vendida_max_lex (df_filtered s df) h

/-- Witness for the amended C6 at the concrete tied dataset. -/
theorem categoria_mas_vendida_amended_witness :
    df_filtered spec_todo df_empate ≠ []
    ∧ ∃ c : String, categoria_mas_vendida (df_filtered spec_todo df_empate) = Except.ok c
      ∧ c ∈ (df_filtered spec_todo df_empate).map (·.repuesto)
      ∧ (∀ c' ∈ (df_filtered spec_todo df_empate).map (·.repuesto),
          suma_por_clave (·.repuesto) (·.cantidad_vendida) (df_filtered spec_todo df_empate) c'
            ≤ suma_por_clave (·.repuesto) (·.cantidad_vendida) (df_filtered spec_todo df_empate) c)
      ∧ (∀ c' ∈ (df_filtered spec_todo df_empate).map (·.repuesto),
          suma_por_clave (·.repuesto) (·.cantidad_vendida) (df_filtered spec_todo df_empate) c'
            = suma_por_clave (·.repuesto) (·.cantidad_vendida) (df_filtered spec_todo df_empate) c
          → c ≤ c') :=
  ⟨by decide, categoria_mas_vendida_amended spec_todo df_empate (by decide)⟩

theorem groupby_sum_keys_nodup {α : Type} [DecidableEq α] (le : α → α → Bool)
    (key : Record → α) (val : Record → Nat) (l : List Record) :
    ((groupby_sum le key val l).map (fun p => p.1)).Nodup := by
  unfold groupby_sum
  rw [List.map_map]
  have h1 : ((fun p : α × Nat => p.1) ∘ (fun k => (k, suma_por_clave key val l k)))
      = fun k : α => k := rfl
  rw [h1, List.map_id']
  exact ((insSort_perm le _).nodup_iff).mpr (List.nodup_dedup _)

theorem ordInsert_lexDesc (a : Nat × Nat) (l : List (Nat × Nat))
    (ha : ∀ b ∈ l, a.1 < b.1) (hl : l.Pairwise lexDesc) :
    (ordInsert valDesc a l).Pairwise lexDesc := by
  induction l with
  | nil => simp [ordInsert]
  | cons b l ih =>
    obtain ⟨hb, hl'⟩ := List.pairwise_cons.mp hl
    by_cases h : valDesc a b
    · rw [ordInsert, if_pos h]
      have hba : b.2 ≤ a.2 := by simpa [valDesc] using h
      refine List.pairwise_cons.mpr ⟨?_, hl⟩
      intro c hc
      rcases List.mem_cons.mp hc with rfl | hc'
      · rcases lt_or_eq_of_le hba with hlt | heqv
        · exact Or.inl hlt
        · exact Or.inr ⟨heqv, ha c (List.mem_cons_self c l)⟩
      · have hcb : c.2 ≤ b.2 := by
          rcases hb c hc' with h1 | h2
          · exact le_of_lt h1
          · exact le_of_eq h2.1
        rcases lt_or_eq_of_le (le_trans hcb hba) with hlt | heqv
        · exact Or.inl hlt
        · exact Or.inr ⟨heqv, ha c (List.mem_cons_of_mem b hc')⟩
    · rw [ordInsert, if_neg h]
      have hab : a.2 < b.2 := by
        have hnb : ¬ b.2 ≤ a.2 := fun hh => h (by simpa [valDesc] using hh)
        omega
      refine List.pairwise_cons.mpr
        ⟨?_, ih (fun c hc => ha c (List.mem_cons_of_mem b hc)) hl'⟩
      intro c hc
      rcases List.mem_cons.mp ((ordInsert_perm valDesc a l).mem_iff.mp hc) with rfl | hc'
      · exact Or.inl hab
      · exact hb c hc'

theorem insSort_lexDesc (l : List (Nat × Nat))
    (h : l.Pairwise (fun p q => p.1 < q.1)) :
    (insSort valDesc l).Pairwise lexDesc := by
  induction l with
  | nil => simp [insSort]
  | cons a l ih =>
    obtain ⟨ha, hl⟩ := List.pairwise_cons.mp h
    exact ordInsert_lexDesc a (insSort valDesc l)
      (fun b hb => ha b ((insSort_perm valDesc l).mem_iff.mp hb)) (ih hl)

theorem top_5_dias_spec_aux (l : List Record) :
    (top_5_dias l).length = min 5 (groupby_fecha_cantidad l).length
    ∧ (∀ p ∈ top_5_dias l,
        p.1 ∈ l.map (·.fecha)
        ∧ p.2 = suma_por_clave (·.fecha) (·.cantidad_vendida) l p.1)
    ∧ ((top_5_dias l).map (fun p => p.1)).Nodup
    ∧ (top_5_dias l).Pairwise lexDesc
    ∧ (∀ d ∈ l.map (·.fecha), d ∉ (top_5_dias l).map (fun p => p.1) →
        ∀ p ∈ top_5_dias l,
          suma_por_clave (·.fecha) (·.cantidad_vendida) l d ≤ p.2) := by
  have hkeys : (groupby_fecha_cantidad l).Pairwise (fun p q => p.1 < q.1) :=
    groupby_sum_keys_pairwise natLe natLe_iff (fun r => r.fecha)
      (fun r => r.cantidad_vendida) l
  have hlex : (insSort valDesc (groupby_fecha_cantidad l)).Pairwise lexDesc :=
    insSort_lexDesc _ hkeys
  refine ⟨?_, ?_, ?_, ?_, ?_⟩
  · rw [top_5_dias, List.length_take, (insSort_perm valDesc _).length_eq]
  · intro p hp
    have hmem : p ∈ groupby_fecha_cantidad l :=
      (insSort_perm valDesc _).mem_iff.mp (List.take_subset 5 _ hp)
    exact groupby_sum_mem hmem
  · have hn1 : ((insSort valDesc (groupby_fecha_cantidad l)).map (fun p => p.1)).Nodup :=
      (((insSort_perm valDesc _).map (fun p : Nat × Nat => p.1)).nodup_iff).mpr
        (groupby_sum_keys_nodup natLe _ _ l)
    exact List.Nodup.sublist
      (List.Sublist.map (fun p : Nat × Nat => p.1)
        (List.take_sublist 5 (insSort valDesc (groupby_fecha_cantidad l)))) hn1
  · exact hlex.sublist (List.take_sublist 5 _)
  · intro d hd hnot p hp
    have hpw : (insSort valDesc (groupby_fecha_cantidad l)).Pairwise
        (fun p q : Nat × Nat => q.2 ≤ p.2) :=
      hlex.imp (fun h => h.elim le_of_lt (fun h2 => le_of_eq h2.1))
    have hmem : (d, suma_por_clave (·.fecha) (·.cantidad_vendida) l d)
        ∈ insSort valDesc (groupby_fecha_cantidad l) :=
      (insSort_perm valDesc _).mem_iff.mpr
        (mem_groupby_sum natLe (fun r => r.fecha) (fun r => r.cantidad_vendida) hd)
    rw [← List.take_append_drop 5 (insSort valDesc (groupby_fecha_cantidad l))]
      at hpw hmem
    obtain ⟨_, _, hcross⟩ := List.pairwise_append.mp hpw
    rcases List.mem_append.mp hmem with hin | hout
    · exact absurd (List.mem_map.mpr ⟨_, hin, rfl⟩) hnot
    · exact hcross p hp _ hout

/-- C7: `top_5_dias` lists the (at most) five distinct dates with the
highest summed quantity sold over the filtered subset, ordered descending
by summed quantity with ties between dates broken by date ascending, and
every date left out has a summed quantity no larger than any listed one. -/
theorem top_5_dias_correct (s : FilterSpec) (df : List Record) :
    (top_5_dias (df_filtered s df)).length
      = min 5 (groupby_fecha_cantidad (df_filtered s df)).length
    ∧ (∀ p ∈ top_5_dias (df_filtered s df),
        p.1 ∈ (df_filtered s df).map (·.fecha)
        ∧ p.2 = suma_por_clave (·.fecha) (·.cantidad_vendida) (df_filtered s df) p.1)
    ∧ ((top_5_dias (df_filtered s df)).map (fun p => p.1)).Nodup
    ∧ (top_5_dias (df_filtered s df)).Pairwise lexDesc
    ∧ (∀ d ∈ (df_filtered s df).map (·.fecha),
        d ∉ (top_5_dias (df_filtered s df)).map (fun p => p.1) →
        ∀ p ∈ top_5_dias (df_filtered s df),
          suma_por_clave (·.fecha) (·.cantidad_vendida) (df_filtered s df) d ≤ p.2) :=
  top_5_dias_spec_aux (df_filtered s df)

end Agroanco
